import Mathlib

/-!
Verification development for the `gdbstub` debug-server engine
(GDB Remote Serial Protocol stub).

The development shallowly embeds the two core source files:
  * `src/protocol/commands/_m.rs` — the `m` (memory-read) command parser;
  * `src/stub.rs` — the `GdbStub` session engine (`recv_packet`,
    `handle_command`, `run`).

Bytes on the wire are modelled as `Nat`, the transport (`Connection`) as a
list of incoming bytes (the bytes currently available to be read) together
with a list of written bytes.  A blocking read on an exhausted input is
surfaced as a distinguished `blocked` outcome; the Rust `unreachable!()`
and `unimplemented!()` panics are surfaced as a `panicked` outcome
carrying the panic site.  The target (`Target::step`) is modelled as a
pure function from the step index (the number of prior step calls) to the
step's emitted memory-access events and resulting `TargetState`.

Types that live in this repository but outside the provided sources
(`Packet`, `Command`, `ResponseWriter`, `Target`, `MemAccess`) are
modelled from the spec; each such definition's doc comment says so.
-/

/-! ### Hexadecimal field parsing (Rust `u64::from_str_radix(_, 16)`) -/

/-- Is `c` a hexadecimal digit (`0-9`, `a-f`, `A-F`)?  Mirrors the digit
set accepted by Rust's `from_str_radix` with radix 16 (case-insensitive). -/
def isHexDigitChar (c : Char) : Bool :=
  (('0' ≤ c) && (c ≤ '9')) || (('a' ≤ c) && (c ≤ 'f')) || (('A' ≤ c) && (c ≤ 'F'))

/-- Value of a hexadecimal digit. -/
def hexDigitValue (c : Char) : Nat :=
  if ('0' ≤ c) && (c ≤ '9') then c.toNat - 48
  else if ('a' ≤ c) && (c ≤ 'f') then c.toNat - 87
  else c.toNat - 55

/-- Accumulating hexadecimal evaluation of a digit string, most significant
digit first; `none` as soon as a non-hex character is met. -/
def hexToNatAux (acc : Nat) : List Char → Option Nat
  | [] => some acc
  | c :: rest =>
    if isHexDigitChar c then hexToNatAux (acc * 16 + hexDigitValue c) rest
    else none

/-- Hexadecimal value of a digit list, or `none` on a non-hex character. -/
def hexToNat (cs : List Char) : Option Nat :=
  hexToNatAux 0 cs

/-- Strip the optional leading `'+'` sign Rust's integer `from_str_radix`
accepts. -/
def stripPlus (cs : List Char) : List Char :=
  match cs with
  | [] => []
  | c :: rest => if c = '+' then rest else c :: rest

/-- Rust `uN::from_str_radix(s, 16)` for an unsigned `N`-bit integer:
an optional leading `'+'` sign is accepted (as Rust's integer
`FromStrRadix` does), the remainder must be a non-empty string of hex
digits, and the value must fit in `N` bits (`PosOverflow` otherwise). -/
def fromStrRadix16 (bits : Nat) (cs : List Char) : Option Nat :=
  if stripPlus cs = [] then none
  else
    match hexToNat (stripPlus cs) with
    | none => none
    | some v => if v < 2 ^ bits then some v else none

/-! ### Rust `str::split(',')` -/

/-- `splitCommaAux cs acc`: tail of Rust's `split(',')`; `acc` holds the
(reversed) characters of the current field. -/
def splitCommaAux : List Char → List Char → List (List Char)
  | [], acc => [acc.reverse]
  | c :: rest, acc =>
    if c = ',' then acc.reverse :: splitCommaAux rest []
    else splitCommaAux rest (c :: acc)

/-- Rust `str::split(',')`: splits into comma-separated fields; the empty
string yields one empty field. -/
def splitComma (cs : List Char) : List (List Char) :=
  splitCommaAux cs []

/-! ### The `m` (memory read) command — `src/protocol/commands/_m.rs` -/

/-- The parsed `m` command: `addr: u64`, `len: usize`
(`pub struct m { pub addr: u64, pub len: usize }`). -/
structure m where
  addr : Nat
  len : Nat
deriving DecidableEq, Repr

/-- `m::parse` (`src/protocol/commands/_m.rs`): split the body on `','`,
parse the first field as a `u64` (64-bit) hex address and the second as a
`usize` hex length; `usizeBits` is the machine word width of `usize`
(target dependent, made an explicit parameter here).  Any field missing
or failing `from_str_radix` is a parse failure (`Err(())`, here `none`);
fields beyond the second are never requested from the iterator. -/
def m.parseFields (usizeBits : Nat) : List (List Char) → Option m
  | a :: l :: _ =>
    match fromStrRadix16 64 a with
    | none => none
    | some addr =>
      match fromStrRadix16 usizeBits l with
      | none => none
      | some len => some { addr := addr, len := len }
  | _ => none

/-- Body of `m::parse` on the split fields: the first two comma-separated
fields are the hex address and length, later fields are never requested
from the split iterator; a missing second field is `Err(())`. -/
def m.parseChars (usizeBits : Nat) (cs : List Char) : Option m :=
  m.parseFields usizeBits (splitComma cs)

/-- `m::parse` on a Rust `&str` body. -/
def m.parse (usizeBits : Nat) (body : String) : Option m :=
  m.parseChars usizeBits body.data

/-! ### Session-engine data model — `src/stub.rs` and spec-modelled types -/

/-- `ExecState` (`src/stub.rs`): the session's execution mode. -/
inductive ExecState
  | Paused
  | Running
  | Exit
deriving DecidableEq, Repr

/-- Modelled from the spec: `TargetState ∈ {Running, Halted}`, the state a
target step reports (referenced by `src/stub.rs` as `TargetState`). -/
inductive TargetState
  | Running
  | Halted
deriving DecidableEq, Repr

/-- Modelled from the spec: a `MemoryAccess` event emitted by the target
during a step — "address, size, direction"; the session engine only
collects these, never inspects the fields. -/
structure MemAccess where
  addr : Nat
  size : Nat
  isWrite : Bool
deriving DecidableEq, Repr

/-- Modelled from the spec: the closed `Command` enumeration.  Only the
subset the spec fully specifies is modelled (`m`, `c`, `s`, `H`,
`qSupported`, plus the `Unknown` fallback); `src/stub.rs` matches on
`QSupported`, `H { .. }`, `Unknown` and a catch-all. -/
inductive Command
  | QSupported (features : List Nat)
  | H (body : List Nat)
  | MemRead (cmd : m)
  | C
  | S
  | Unknown
deriving DecidableEq, Repr

/-- Modelled from the spec: the wire `Packet` — `Ack` (`+`), `Nack` (`-`),
or a framed command. -/
inductive Packet
  | Ack
  | Nack
  | Cmd (c : Command)
deriving DecidableEq, Repr

/-- Byte constants for the protocol-reserved ASCII characters. -/
def plusByte : Nat := 43
def minusByte : Nat := 45
def dollarByte : Nat := 36
def hashByte : Nat := 35

/-- Hexadecimal value of an ASCII byte, or `none`. -/
def hexByteValue (b : Nat) : Option Nat :=
  if 48 ≤ b ∧ b ≤ 57 then some (b - 48)
  else if 97 ≤ b ∧ b ≤ 102 then some (b - 87)
  else if 65 ≤ b ∧ b ≤ 70 then some (b - 55)
  else none

/-- RSP checksum: 8-bit sum of the payload bytes modulo 256. -/
def checksum (payload : List Nat) : Nat :=
  payload.foldl (· + ·) 0 % 256

/-- Modelled from the spec: the per-letter command dispatch of the Command
Parser.  Parses the body of a `$...#xx` frame into a `Command`; the `m`
family uses `m::parse` (which IS in src); unrecognized letters parse to
`Unknown` rather than failing.  The session pipeline fixes `usize` at 64
bits. -/
def Command.fromBody (body : List Nat) : Except String Command :=
  match body with
  | 109 :: rest =>
    match m.parseChars 64 (rest.map Char.ofNat) with
    | some cmd => Except.ok (Command.MemRead cmd)
    | none => Except.error "malformed m command"
  | 99 :: _ => Except.ok Command.C
  | 115 :: _ => Except.ok Command.S
  | 72 :: rest => Except.ok (Command.H rest)
  | 113 :: rest => Except.ok (Command.QSupported rest)
  | _ => Except.ok Command.Unknown

/-- Modelled from the spec: `Packet::from_buf` — frames the receive buffer
into `Ack | Nack | Command`; a `$body#xx` buffer has its two-hex-digit
checksum validated against the 8-bit sum of the body bytes, mismatch and
bad framing are parse errors. -/
def Packet.fromBuf (buf : List Nat) : Except String Packet :=
  if buf = [plusByte] then Except.ok Packet.Ack
  else if buf = [minusByte] then Except.ok Packet.Nack
  else
    match buf with
    | 36 :: rest =>
      let body := rest.takeWhile (· ≠ hashByte)
      match rest.dropWhile (· ≠ hashByte) with
      | [35, c1, c2] =>
        match hexByteValue c1, hexByteValue c2 with
        | some hi, some lo =>
          if checksum body = hi * 16 + lo then
            (Command.fromBody body).map Packet.Cmd
          else Except.error "checksum mismatch"
        | _, _ => Except.error "bad checksum digits"
      | _ => Except.error "bad framing"
    | _ => Except.error "unexpected header byte"

/-- The mutable state of a `GdbStub` session together with its transport:
`execState` is the `exec_state` field, `input` the bytes currently
available to be read from the connection, `output` the bytes written so
far, `packetBuffer` the reusable receive buffer, and `memAccesses` /
`stepCount` the run loop's accumulated memory-access events and the
number of `target.step` calls made so far (`stepCount` indexes the pure
target function). -/
structure StubState where
  execState : ExecState
  input : List Nat
  output : List Nat
  packetBuffer : List Nat
  memAccesses : List MemAccess
  stepCount : Nat
deriving DecidableEq, Repr

/-- `GdbStub::new`: a fresh session starts `Paused` with empty buffers. -/
def initialState (input : List Nat) : StubState :=
  { execState := ExecState.Paused
    input := input
    output := []
    packetBuffer := []
    memAccesses := []
    stepCount := 0 }

/-- The Rust panic sites reachable from the session engine. -/
inductive PanicReason
  | unreachableExit
  | unimplementedNack
deriving DecidableEq, Repr

/-- Result of `recv_packet`: `blocked` models a blocking read suspended on
an exhausted input, `panicked` the `unreachable!()` panic, `parseErr` an
`Error::PacketParse`, and `ok p input buffer` a normal return carrying
the received packet (if any), the remaining input, and the new contents
of the receive buffer. -/
inductive RecvResult
  | blocked
  | panicked (r : PanicReason)
  | parseErr (msg : String)
  | ok (p : Option Packet) (input : List Nat) (buffer : List Nat)
deriving DecidableEq, Repr

/-- Blocking reads of the `$` packet body up to (and consuming) the `#`
terminator: returns the body and the remaining input, or `none` if the
input is exhausted first (the blocking read would suspend forever). -/
def readUntilHash : List Nat → Option (List Nat × List Nat)
  | [] => none
  | b :: rest =>
    if b = hashByte then some ([], rest)
    else
      match readUntilHash rest with
      | none => none
      | some (body, rest') => some (b :: body, rest')

/-- The body of `recv_packet` after the header byte was read (`src/stub.rs`
lines 72–93): clear the buffer, push the header, and if it is `$` read
the body up to `#` plus two checksum bytes with blocking reads; then
frame the buffer with `Packet::from_buf`. -/
def recvBody (b : Nat) (rest : List Nat) : RecvResult :=
  if b = dollarByte then
    match readUntilHash rest with
    | none => RecvResult.blocked
    | some (body, rest') =>
      match rest' with
      | c1 :: c2 :: rest'' =>
        match Packet.fromBuf (dollarByte :: body ++ [hashByte, c1, c2]) with
        | Except.ok p =>
          RecvResult.ok (some p) rest'' (dollarByte :: body ++ [hashByte, c1, c2])
        | Except.error e => RecvResult.parseErr e
      | _ => RecvResult.blocked
  else
    match Packet.fromBuf [b] with
    | Except.ok p => RecvResult.ok (some p) rest [b]
    | Except.error e => RecvResult.parseErr e

/-- `GdbStub::recv_packet` (`src/stub.rs`): the header byte is read with a
blocking read when `Paused`, a single non-blocking read when `Running`
(returning `Ok(None)` when no byte is pending), and the `Exit` arm is
`unreachable!()`. -/
def recvPacket (s : StubState) : RecvResult :=
  match s.execState with
  | ExecState.Paused =>
    match s.input with
    | [] => RecvResult.blocked
    | b :: rest => recvBody b rest
  | ExecState.Running =>
    match s.input with
    | [] => RecvResult.ok none s.input s.packetBuffer
    | b :: rest => recvBody b rest
  | ExecState.Exit => RecvResult.panicked PanicReason.unreachableExit

/-- ASCII byte of a hexadecimal digit (lowercase). -/
def hexDigitByte (v : Nat) : Nat :=
  if v < 10 then v + 48 else v + 87

/-- Modelled from the spec: `ResponseWriter`'s `flush` via the Packet
Codec's `write_response` — emit `$`, the payload, `#`, and the
two-hex-digit checksum (the sample does not escape reserved bytes). -/
def writeResponse (payload : List Nat) : List Nat :=
  let ck := checksum payload
  dollarByte :: payload ++ [hashByte, hexDigitByte (ck / 16), hexDigitByte (ck % 16)]

/-- `GdbStub::handle_command` (`src/stub.rs`): acknowledge with `+`, then
build a response: `QSupported` writes nothing (TODO in the source), `H`
writes `"OK"`, `Unknown` and every other command write nothing (they are
only traced); finally flush one framed response.  No arm touches
`exec_state`. -/
def handleCommand (s : StubState) (cmd : Command) : StubState :=
  let payload : List Nat :=
    match cmd with
    | Command.QSupported _ => []
    | Command.H _ => [79, 75]
    | Command.Unknown => []
    | _ => []
  { s with output := s.output ++ [plusByte] ++ writeResponse payload }

/-- Result of one iteration of the `run` loop: `done ts s` models
`return Ok(ts)` with final session state `s`, `next s` one more trip
around the loop, and the rest propagate blocking, panics and errors
(`err` covers both `Error::PacketParse` and `Error::TargetError`). -/
inductive IterResult
  | done (ts : TargetState) (s : StubState)
  | next (s : StubState)
  | blocked
  | panicked (r : PanicReason)
  | err (msg : String)
deriving DecidableEq, Repr

/-- A target, modelled from the spec's collaborator contract: the `n`-th
`step` call either fails with a target error or reports the ordered list
of memory accesses made during the step and the resulting target state. -/
def TargetModel : Type :=
  Nat → Except String (List MemAccess × TargetState)

/-- The second half of a `run`-loop iteration (`src/stub.rs` lines
116–130): the `match self.exec_state` that decides whether to step the
target.  `Paused` does nothing, `Running` performs exactly one
`target.step` pushing each reported access into `mem_accesses` (and
returns `Ok(Halted)` if the step halted), `Exit` returns
`Ok(TargetState::Running)`. -/
def execPhase (tgt : TargetModel) (s : StubState) : IterResult :=
  match s.execState with
  | ExecState.Paused => IterResult.next s
  | ExecState.Running =>
    match tgt s.stepCount with
    | Except.error e => IterResult.err e
    | Except.ok (evs, ts) =>
      if ts = TargetState.Halted then
        IterResult.done TargetState.Halted
          { s with memAccesses := s.memAccesses ++ evs, stepCount := s.stepCount + 1 }
      else
        IterResult.next
          { s with memAccesses := s.memAccesses ++ evs, stepCount := s.stepCount + 1 }
  | ExecState.Exit => IterResult.done TargetState.Running s

/-- One iteration of `GdbStub::run`'s loop (`src/stub.rs` lines 103–131):
receive at most one packet (`Ack` is ignored, `Nack` is
`unimplemented!()`, a command is dispatched to `handle_command`), then
run the execution-state check (`execPhase`). -/
def runIter (tgt : TargetModel) (s : StubState) : IterResult :=
  match recvPacket s with
  | RecvResult.blocked => IterResult.blocked
  | RecvResult.panicked r => IterResult.panicked r
  | RecvResult.parseErr e => IterResult.err e
  | RecvResult.ok p input' buf' =>
    match p with
    | none => execPhase tgt { s with input := input', packetBuffer := buf' }
    | some Packet.Ack => execPhase tgt { s with input := input', packetBuffer := buf' }
    | some Packet.Nack => IterResult.panicked PanicReason.unimplementedNack
    | some (Packet.Cmd c) =>
      execPhase tgt (handleCommand { s with input := input', packetBuffer := buf' } c)

/-- Outcome of `GdbStub::run`, with explicit fuel for the loop. -/
inductive RunResult
  | ok (ts : TargetState) (s : StubState)
  | blocked
  | panicked (r : PanicReason)
  | err (msg : String)
  | outOfFuel (s : StubState)
deriving DecidableEq, Repr

/-- `GdbStub::run` (`src/stub.rs`): iterate the loop body, threading the
session state, for at most `fuel` iterations. -/
def run (tgt : TargetModel) : Nat → StubState → RunResult
  | 0, s => RunResult.outOfFuel s
  | fuel + 1, s =>
    match runIter tgt s with
    | IterResult.done ts s' => RunResult.ok ts s'
    | IterResult.next s' => run tgt fuel s'
    | IterResult.blocked => RunResult.blocked
    | IterResult.panicked r => RunResult.panicked r
    | IterResult.err e => RunResult.err e

/-- The post-iteration step counter of an iteration that completed
normally (`next` or `done`); `none` for blocked, panicked or failed
iterations.  Comparing it with the pre-iteration counter tells how many
`target.step` calls the iteration made. -/
def iterSteps : IterResult → Option Nat
  | IterResult.next s => some s.stepCount
  | IterResult.done _ s => some s.stepCount
  | IterResult.blocked => none
  | IterResult.panicked _ => none
  | IterResult.err _ => none

/-- A trivial target whose every step reports no memory accesses and an
immediate halt; used to instantiate theorems at concrete inputs. -/
def haltTarget : TargetModel :=
  fun _ => Except.ok ([], TargetState.Halted)

/-- A session in the `Running` execution state with exhausted input. -/
def runningState : StubState :=
  { initialState [] with execState := ExecState.Running }

/-- A session in the `Exit` execution state. -/
def exitState : StubState :=
  { initialState [] with execState := ExecState.Exit }

/-- The wire frame `$c#63` carrying the RSP continue command (`63` is the
checksum of the single body byte `c`). -/
def continueFrame : List Nat :=
  [36, 99, 35, 54, 51]

/-- The session state reached after a fresh paused session receives a
single `+` (Ack) byte: only the input and the receive buffer change. -/
def ackNextState : StubState :=
  { execState := ExecState.Paused
    input := []
    output := []
    packetBuffer := [plusByte]
    memAccesses := []
    stepCount := 0 }

/-! ### Lemmas about hexadecimal field parsing -/

lemma hexToNatAux_eq_none {c : Char} (hc : isHexDigitChar c = false) :
    ∀ (cs : List Char) (acc : Nat), c ∈ cs → hexToNatAux acc cs = none := by
  intro cs
  induction cs with
  | nil => intro acc h; cases h
  | cons d rest ih =>
    intro acc h
    unfold hexToNatAux
    by_cases hd : isHexDigitChar d
    · rw [if_pos hd]
      rcases List.mem_cons.mp h with rfl | hmem
      · rw [hc] at hd; cases hd
      · exact ih _ hmem
    · rw [if_neg hd]

lemma hexToNat_eq_none {c : Char} {cs : List Char} (hmem : c ∈ cs)
    (hc : isHexDigitChar c = false) : hexToNat cs = none :=
  hexToNatAux_eq_none hc cs 0 hmem

lemma mem_stripPlus {c : Char} {cs : List Char} (hmem : c ∈ cs)
    (hp : c ≠ '+') : c ∈ stripPlus cs := by
  cases cs with
  | nil => cases hmem
  | cons d rest =>
    show c ∈ (if d = '+' then rest else d :: rest)
    by_cases hd : d = '+'
    · rw [if_pos hd]
      rcases List.mem_cons.mp hmem with rfl | h
      · exact absurd hd hp
      · exact h
    · rw [if_neg hd]
      exact hmem

lemma fromStrRadix16_eq_none {bits : Nat} {cs : List Char} {c : Char}
    (hmem : c ∈ cs) (hc : isHexDigitChar c = false) (hp : c ≠ '+') :
    fromStrRadix16 bits cs = none := by
  have hmem' : c ∈ stripPlus cs := mem_stripPlus hmem hp
  have hne : stripPlus cs ≠ [] := List.ne_nil_of_mem hmem'
  unfold fromStrRadix16
  rw [if_neg hne, hexToNat_eq_none hmem' hc]

lemma fromStrRadix16_lt {bits : Nat} {cs : List Char} {v : Nat}
    (h : fromStrRadix16 bits cs = some v) : v < 2 ^ bits := by
  unfold fromStrRadix16 at h
  split at h
  · exact absurd h (by simp)
  · split at h
    · exact absurd h (by simp)
    · split at h
      · cases h; assumption
      · exact absurd h (by simp)

lemma mParseFields_cons {usizeBits : Nat} (a l : List Char)
    (rest : List (List Char)) :
    m.parseFields usizeBits (a :: l :: rest) =
      match fromStrRadix16 64 a with
      | none => none
      | some addr =>
        match fromStrRadix16 usizeBits l with
        | none => none
        | some len => some { addr := addr, len := len } :=
  rfl

lemma mParseChars_eq_none_of_short {usizeBits : Nat} {cs : List Char}
    (h : (splitComma cs).length < 2) : m.parseChars usizeBits cs = none := by
  unfold m.parseChars
  cases hs : splitComma cs with
  | nil => rfl
  | cons a rest =>
    cases rest with
    | nil => rfl
    | cons l rest' =>
      rw [hs] at h
      simp only [List.length_cons] at h
      omega

lemma mParseChars_eq_none_of_badChar {usizeBits : Nat} {cs : List Char}
    {a l : List Char} {rest : List (List Char)} {c : Char}
    (hs : splitComma cs = a :: l :: rest) (hmem : c ∈ a ∨ c ∈ l)
    (hc : isHexDigitChar c = false) (hp : c ≠ '+') :
    m.parseChars usizeBits cs = none := by
  unfold m.parseChars
  rw [hs, mParseFields_cons]
  rcases hmem with ha | hl
  · rw [fromStrRadix16_eq_none ha hc hp]
  · cases haddr : fromStrRadix16 64 a with
    | none => rfl
    | some addr => rw [fromStrRadix16_eq_none hl hc hp]

lemma mParseChars_bounds {usizeBits : Nat} {cs : List Char} {r : m}
    (h : m.parseChars usizeBits cs = some r) :
    r.addr < 2 ^ 64 ∧ r.len < 2 ^ usizeBits := by
  unfold m.parseChars at h
  cases hs : splitComma cs with
  | nil => rw [hs] at h; cases h
  | cons a rest =>
    cases rest with
    | nil => rw [hs] at h; cases h
    | cons l rest' =>
      rw [hs, mParseFields_cons] at h
      cases haddr : fromStrRadix16 64 a with
      | none => rw [haddr] at h; cases h
      | some addr =>
        rw [haddr] at h
        cases hlen : fromStrRadix16 usizeBits l with
        | none => rw [hlen] at h; cases h
        | some len =>
          rw [hlen] at h
          cases h
          exact ⟨fromStrRadix16_lt haddr, fromStrRadix16_lt hlen⟩

/-! ### Claims about `m::parse` -/

/-- Claim C4: `m::parse` parses a body of the form `ADDR,LEN`, both fields
case-insensitive hexadecimal without a `0x` prefix, `ADDR` into a 64-bit
address and `LEN` into a machine-word-sized (`usizeBits`-bit) byte count;
the body `7fff0000,4` parses to `addr = 0x7fff0000` and `len = 4` (in
either case), and a missing or malformed field is a parse failure. -/
theorem m_parse_scenario (w : Nat) (h : 3 ≤ w) :
    m.parse w "7fff0000,4" = some { addr := 0x7fff0000, len := 4 } ∧
    m.parse w "7FFF0000,4" = some { addr := 0x7fff0000, len := 4 } ∧
    m.parse w "7fff0000" = none ∧
    m.parse w "" = none ∧
    m.parse w ",4" = none ∧
    m.parse w "7fff0000," = none ∧
    m.parse w "0x10,4" = none ∧
    m.parse w "7gff0000,4" = none := by
  have h4 : (4 : Nat) < 2 ^ w :=
    lt_of_lt_of_le (by norm_num) (Nat.pow_le_pow_right (by norm_num) h)
  have hlen : fromStrRadix16 w ['4'] = some 4 := by
    show (if (4 : Nat) < 2 ^ w then some 4 else none) = some 4
    exact if_pos h4
  refine ⟨?_, ?_, rfl, rfl, rfl, rfl, rfl, rfl⟩
  · show m.parseFields w (splitComma "7fff0000,4".data) =
      some { addr := 0x7fff0000, len := 4 }
    rw [show splitComma "7fff0000,4".data =
        [['7', 'f', 'f', 'f', '0', '0', '0', '0'], ['4']] from by decide,
      mParseFields_cons,
      show fromStrRadix16 64 ['7', 'f', 'f', 'f', '0', '0', '0', '0'] =
        some 0x7fff0000 from by decide, hlen]
  · show m.parseFields w (splitComma "7FFF0000,4".data) =
      some { addr := 0x7fff0000, len := 4 }
    rw [show splitComma "7FFF0000,4".data =
        [['7', 'F', 'F', 'F', '0', '0', '0', '0'], ['4']] from by decide,
      mParseFields_cons,
      show fromStrRadix16 64 ['7', 'F', 'F', 'F', '0', '0', '0', '0'] =
        some 0x7fff0000 from by decide, hlen]

/-- Witness for `m_parse_scenario` at the 64-bit machine word. -/
theorem m_parse_scenario_witness :
    3 ≤ 64 ∧ m.parse 64 "7fff0000,4" = some { addr := 0x7fff0000, len := 4 } :=
  ⟨by decide, (m_parse_scenario 64 (by decide)).1⟩

/-- Claim C5 counterexample: `m::parse` accepts trailing garbage after the
second comma-separated field (`0,4,zz` parses successfully, the split
iterator's later fields are never requested) and accepts the non-hex
character `'+'` as a leading sign in a field (Rust's `from_str_radix`
behaviour), so malformed bodies of these two shapes do NOT fail. -/
theorem m_parse_totality_cex :
    m.parse 64 "0,4,zz" = some { addr := 0, len := 4 } ∧
    m.parse 64 "+0,4" = some { addr := 0, len := 4 } := by
  decide

/-- Claim C5 (amended): `m::parse` never panics (it is a total function
into `Option`), and it returns a parse failure whenever the body has
fewer than two comma-separated fields, or one of the first two fields
contains a character that is neither a hex digit nor a leading `'+'`
sign; any parsed value is in range of its field's integer type
(`addr < 2^64`, `len < 2^usizeBits`).  Content in comma-separated fields
after the second is ignored rather than rejected, and a leading `'+'`
sign is accepted. -/
theorem m_parse_malformed_amended (w : Nat) (body : String) :
    ((splitComma body.data).length < 2 → m.parse w body = none) ∧
    (∀ (a l : List Char) (rest : List (List Char)),
      splitComma body.data = a :: l :: rest →
      (∀ c : Char, (c ∈ a ∨ c ∈ l) → isHexDigitChar c = false → c ≠ '+' →
        m.parse w body = none) ∧
      (∀ r : m, m.parse w body = some r → r.addr < 2 ^ 64 ∧ r.len < 2 ^ w)) :=
  ⟨fun h => mParseChars_eq_none_of_short h,
    fun _ _ _ hs =>
      ⟨fun _ hmem hc hp => mParseChars_eq_none_of_badChar hs hmem hc hp,
        fun _ h => mParseChars_bounds h⟩⟩

/-- Witness for `m_parse_malformed_amended`: a one-field body and a body
with a non-hex character in the second field both fail to parse. -/
theorem m_parse_malformed_amended_witness :
    (splitComma "".data).length < 2 ∧ m.parse 64 "" = none ∧
    splitComma "0,zz".data = [['0'], ['z', 'z']] ∧ m.parse 64 "0,zz" = none :=
  ⟨by decide, (m_parse_malformed_amended 64 "").1 (by decide), by decide,
    ((m_parse_malformed_amended 64 "0,zz").2 ['0'] ['z', 'z'] [] (by decide)).1 'z'
      (Or.inr (by decide)) (by decide) (by decide)⟩

/-! ### Lemmas about the session engine -/

lemma handleCommand_execState (s : StubState) (c : Command) :
    (handleCommand s c).execState = s.execState :=
  rfl

lemma run_succ (tgt : TargetModel) (fuel : Nat) (s : StubState) :
    run tgt (fuel + 1) s =
      match runIter tgt s with
      | IterResult.done ts s' => RunResult.ok ts s'
      | IterResult.next s' => run tgt fuel s'
      | IterResult.blocked => RunResult.blocked
      | IterResult.panicked r => RunResult.panicked r
      | IterResult.err e => RunResult.err e :=
  rfl

lemma run_succ_done (tgt : TargetModel) (fuel : Nat) (s : StubState)
    (ts : TargetState) (s' : StubState)
    (h : runIter tgt s = IterResult.done ts s') :
    run tgt (fuel + 1) s = RunResult.ok ts s' := by
  rw [run_succ, h]

lemma execPhase_eq_paused (tgt : TargetModel) (t : StubState)
    (h : t.execState = ExecState.Paused) :
    execPhase tgt t = IterResult.next t := by
  unfold execPhase
  rw [h]

lemma execPhase_eq_exit (tgt : TargetModel) (t : StubState)
    (h : t.execState = ExecState.Exit) :
    execPhase tgt t = IterResult.done TargetState.Running t := by
  unfold execPhase
  rw [h]

lemma execPhase_eq_err (tgt : TargetModel) (t : StubState) (e : String)
    (h : t.execState = ExecState.Running)
    (hstep : tgt t.stepCount = Except.error e) :
    execPhase tgt t = IterResult.err e := by
  unfold execPhase
  rw [h, hstep]

lemma execPhase_running (tgt : TargetModel) (t : StubState)
    (evs : List MemAccess) (ts : TargetState)
    (h : t.execState = ExecState.Running)
    (hstep : tgt t.stepCount = Except.ok (evs, ts)) :
    execPhase tgt t =
      if ts = TargetState.Halted then
        IterResult.done TargetState.Halted
          { t with memAccesses := t.memAccesses ++ evs, stepCount := t.stepCount + 1 }
      else
        IterResult.next
          { t with memAccesses := t.memAccesses ++ evs, stepCount := t.stepCount + 1 } := by
  unfold execPhase
  rw [h, hstep]

lemma execPhase_no_panic (tgt : TargetModel) (t : StubState) (r : PanicReason) :
    execPhase tgt t ≠ IterResult.panicked r := by
  cases ht : t.execState
  · rw [execPhase_eq_paused tgt t ht]
    simp
  · cases hstep : tgt t.stepCount with
    | error e =>
      rw [execPhase_eq_err tgt t e ht hstep]
      simp
    | ok pr =>
      obtain ⟨evs, ts⟩ := pr
      rw [execPhase_running tgt t evs ts ht hstep]
      split <;> simp
  · rw [execPhase_eq_exit tgt t ht]
    simp

lemma execPhase_next_execState (tgt : TargetModel) (t s' : StubState)
    (h : execPhase tgt t = IterResult.next s') : s'.execState = t.execState := by
  cases ht : t.execState
  · rw [execPhase_eq_paused tgt t ht] at h
    cases h
    exact ht
  · cases hstep : tgt t.stepCount with
    | error e =>
      rw [execPhase_eq_err tgt t e ht hstep] at h
      cases h
    | ok pr =>
      obtain ⟨evs, ts⟩ := pr
      rw [execPhase_running tgt t evs ts ht hstep] at h
      split at h
      · cases h
      · cases h
        exact ht
  · rw [execPhase_eq_exit tgt t ht] at h
    cases h

lemma execPhase_preserves_out (tgt : TargetModel) (t : StubState) :
    (∀ s', execPhase tgt t = IterResult.next s' →
      s'.execState = t.execState ∧ s'.output = t.output) ∧
    (∀ ts s', execPhase tgt t = IterResult.done ts s' →
      s'.execState = t.execState ∧ s'.output = t.output) := by
  constructor
  · intro s' h
    cases ht : t.execState
    · rw [execPhase_eq_paused tgt t ht] at h
      cases h
      exact ⟨ht, rfl⟩
    · cases hstep : tgt t.stepCount with
      | error e =>
        rw [execPhase_eq_err tgt t e ht hstep] at h
        cases h
      | ok pr =>
        obtain ⟨evs, ts⟩ := pr
        rw [execPhase_running tgt t evs ts ht hstep] at h
        split at h
        · cases h
        · cases h
          exact ⟨ht, rfl⟩
    · rw [execPhase_eq_exit tgt t ht] at h
      cases h
  · intro ts s' h
    cases ht : t.execState
    · rw [execPhase_eq_paused tgt t ht] at h
      cases h
    · cases hstep : tgt t.stepCount with
      | error e =>
        rw [execPhase_eq_err tgt t e ht hstep] at h
        cases h
      | ok pr =>
        obtain ⟨evs, ts'⟩ := pr
        rw [execPhase_running tgt t evs ts' ht hstep] at h
        split at h
        · cases h
          exact ⟨ht, rfl⟩
        · cases h
    · rw [execPhase_eq_exit tgt t ht] at h
      cases h
      exact ⟨ht, rfl⟩

lemma execPhase_steps (tgt : TargetModel) (t : StubState) (n : Nat)
    (h : iterSteps (execPhase tgt t) = some n) :
    (t.execState = ExecState.Running ∧ n = t.stepCount + 1) ∨
    (t.execState ≠ ExecState.Running ∧ n = t.stepCount) := by
  cases ht : t.execState
  · rw [execPhase_eq_paused tgt t ht] at h
    simp only [iterSteps] at h
    exact Or.inr ⟨fun hc => ExecState.noConfusion hc, (Option.some.inj h).symm⟩
  · left
    refine ⟨rfl, ?_⟩
    cases hstep : tgt t.stepCount with
    | error e =>
      rw [execPhase_eq_err tgt t e ht hstep] at h
      exact Option.noConfusion h
    | ok pr =>
      obtain ⟨evs, ts⟩ := pr
      rw [execPhase_running tgt t evs ts ht hstep] at h
      split at h <;>
      · simp only [iterSteps] at h
        exact (Option.some.inj h).symm
  · rw [execPhase_eq_exit tgt t ht] at h
    simp only [iterSteps] at h
    exact Or.inr ⟨fun hc => ExecState.noConfusion hc, (Option.some.inj h).symm⟩

lemma recvBody_no_panic (b : Nat) (rest : List Nat) (r : PanicReason) :
    recvBody b rest ≠ RecvResult.panicked r := by
  unfold recvBody
  repeat' split
  all_goals simp

lemma recvPacket_eq_paused_nil (s : StubState)
    (h1 : s.execState = ExecState.Paused) (h2 : s.input = []) :
    recvPacket s = RecvResult.blocked := by
  unfold recvPacket
  rw [h1, h2]

lemma recvPacket_eq_paused_cons (s : StubState) (b : Nat) (rest : List Nat)
    (h1 : s.execState = ExecState.Paused) (h2 : s.input = b :: rest) :
    recvPacket s = recvBody b rest := by
  unfold recvPacket
  rw [h1, h2]

lemma recvPacket_eq_running_nil (s : StubState)
    (h1 : s.execState = ExecState.Running) (h2 : s.input = []) :
    recvPacket s = RecvResult.ok none s.input s.packetBuffer := by
  unfold recvPacket
  rw [h1, h2]

lemma recvPacket_eq_running_cons (s : StubState) (b : Nat) (rest : List Nat)
    (h1 : s.execState = ExecState.Running) (h2 : s.input = b :: rest) :
    recvPacket s = recvBody b rest := by
  unfold recvPacket
  rw [h1, h2]

lemma recvPacket_eq_exit (s : StubState) (h1 : s.execState = ExecState.Exit) :
    recvPacket s = RecvResult.panicked PanicReason.unreachableExit := by
  unfold recvPacket
  rw [h1]

lemma recvPacket_panicked (s : StubState) (r : PanicReason)
    (h : recvPacket s = RecvResult.panicked r) : s.execState = ExecState.Exit := by
  cases hs : s.execState
  · cases hi : s.input with
    | nil =>
      rw [recvPacket_eq_paused_nil s hs hi] at h
      cases h
    | cons b rest =>
      rw [recvPacket_eq_paused_cons s b rest hs hi] at h
      exact absurd h (recvBody_no_panic b rest r)
  · cases hi : s.input with
    | nil =>
      rw [recvPacket_eq_running_nil s hs hi] at h
      cases h
    | cons b rest =>
      rw [recvPacket_eq_running_cons s b rest hs hi] at h
      exact absurd h (recvBody_no_panic b rest r)
  · rfl

lemma runIter_eq_blocked (tgt : TargetModel) (s : StubState)
    (h : recvPacket s = RecvResult.blocked) :
    runIter tgt s = IterResult.blocked := by
  unfold runIter
  rw [h]

lemma runIter_eq_panicked (tgt : TargetModel) (s : StubState) (r : PanicReason)
    (h : recvPacket s = RecvResult.panicked r) :
    runIter tgt s = IterResult.panicked r := by
  unfold runIter
  rw [h]

lemma runIter_eq_parseErr (tgt : TargetModel) (s : StubState) (e : String)
    (h : recvPacket s = RecvResult.parseErr e) :
    runIter tgt s = IterResult.err e := by
  unfold runIter
  rw [h]

lemma runIter_eq_none (tgt : TargetModel) (s : StubState) (input' buf' : List Nat)
    (h : recvPacket s = RecvResult.ok none input' buf') :
    runIter tgt s = execPhase tgt { s with input := input', packetBuffer := buf' } := by
  unfold runIter
  rw [h]

lemma runIter_eq_ack (tgt : TargetModel) (s : StubState) (input' buf' : List Nat)
    (h : recvPacket s = RecvResult.ok (some Packet.Ack) input' buf') :
    runIter tgt s = execPhase tgt { s with input := input', packetBuffer := buf' } := by
  unfold runIter
  rw [h]

lemma runIter_eq_nack (tgt : TargetModel) (s : StubState) (input' buf' : List Nat)
    (h : recvPacket s = RecvResult.ok (some Packet.Nack) input' buf') :
    runIter tgt s = IterResult.panicked PanicReason.unimplementedNack := by
  unfold runIter
  rw [h]

lemma runIter_eq_cmd (tgt : TargetModel) (s : StubState) (c : Command)
    (input' buf' : List Nat)
    (h : recvPacket s = RecvResult.ok (some (Packet.Cmd c)) input' buf') :
    runIter tgt s =
      execPhase tgt (handleCommand { s with input := input', packetBuffer := buf' } c) := by
  unfold runIter
  rw [h]

lemma runIter_next_execState (tgt : TargetModel) (s s' : StubState)
    (h : runIter tgt s = IterResult.next s') : s'.execState = s.execState := by
  cases hr : recvPacket s with
  | blocked =>
    rw [runIter_eq_blocked tgt s hr] at h
    cases h
  | panicked r =>
    rw [runIter_eq_panicked tgt s r hr] at h
    cases h
  | parseErr e =>
    rw [runIter_eq_parseErr tgt s e hr] at h
    cases h
  | ok p input' buf' =>
    cases p with
    | none =>
      rw [runIter_eq_none tgt s input' buf' hr] at h
      exact execPhase_next_execState tgt
        { s with input := input', packetBuffer := buf' } s' h
    | some pk =>
      cases pk with
      | Ack =>
        rw [runIter_eq_ack tgt s input' buf' hr] at h
        exact execPhase_next_execState tgt
          { s with input := input', packetBuffer := buf' } s' h
      | Nack =>
        rw [runIter_eq_nack tgt s input' buf' hr] at h
        cases h
      | Cmd c =>
        rw [runIter_eq_cmd tgt s c input' buf' hr] at h
        exact execPhase_next_execState tgt
          (handleCommand { s with input := input', packetBuffer := buf' } c) s' h

lemma runIter_panicked (tgt : TargetModel) (s : StubState) (r : PanicReason)
    (h : runIter tgt s = IterResult.panicked r)
    (hne : s.execState ≠ ExecState.Exit) :
    r = PanicReason.unimplementedNack := by
  cases hr : recvPacket s with
  | blocked =>
    rw [runIter_eq_blocked tgt s hr] at h
    cases h
  | panicked r' => exact absurd (recvPacket_panicked s r' hr) hne
  | parseErr e =>
    rw [runIter_eq_parseErr tgt s e hr] at h
    cases h
  | ok p input' buf' =>
    cases p with
    | none =>
      rw [runIter_eq_none tgt s input' buf' hr] at h
      exact absurd h (execPhase_no_panic tgt
        { s with input := input', packetBuffer := buf' } r)
    | some pk =>
      cases pk with
      | Ack =>
        rw [runIter_eq_ack tgt s input' buf' hr] at h
        exact absurd h (execPhase_no_panic tgt
          { s with input := input', packetBuffer := buf' } r)
      | Nack =>
        rw [runIter_eq_nack tgt s input' buf' hr] at h
        cases h
        rfl
      | Cmd c =>
        rw [runIter_eq_cmd tgt s c input' buf' hr] at h
        exact absurd h (execPhase_no_panic tgt
          (handleCommand { s with input := input', packetBuffer := buf' } c) r)

lemma runIter_running_core (tgt : TargetModel) (s t : StubState)
    (evs : List MemAccess) (ts : TargetState)
    (hrr : runIter tgt s = execPhase tgt t)
    (hexec : t.execState = ExecState.Running)
    (hcount : t.stepCount = s.stepCount)
    (hmem : t.memAccesses = s.memAccesses)
    (hstep : tgt s.stepCount = Except.ok (evs, ts)) :
    ∃ s', s'.stepCount = s.stepCount + 1 ∧
      s'.memAccesses = s.memAccesses ++ evs ∧
      (ts = TargetState.Halted →
        runIter tgt s = IterResult.done TargetState.Halted s' ∧
        ∀ fuel, run tgt (fuel + 1) s = RunResult.ok TargetState.Halted s') ∧
      (ts = TargetState.Running → runIter tgt s = IterResult.next s') := by
  refine ⟨{ t with memAccesses := t.memAccesses ++ evs, stepCount := t.stepCount + 1 },
    by simp [hcount], by simp [hmem], ?_, ?_⟩
  · intro hts
    subst hts
    have h2 : execPhase tgt t =
        IterResult.done TargetState.Halted
          { t with memAccesses := t.memAccesses ++ evs, stepCount := t.stepCount + 1 } := by
      rw [execPhase_running tgt t evs TargetState.Halted hexec (hcount.symm ▸ hstep)]
      rw [if_pos rfl]
    exact ⟨by rw [hrr, h2],
      fun fuel => run_succ_done tgt fuel s TargetState.Halted _ (by rw [hrr, h2])⟩
  · intro hts
    subst hts
    have h2 : execPhase tgt t =
        IterResult.next
          { t with memAccesses := t.memAccesses ++ evs, stepCount := t.stepCount + 1 } := by
      rw [execPhase_running tgt t evs TargetState.Running hexec (hcount.symm ▸ hstep)]
      rw [if_neg (fun hc => TargetState.noConfusion hc)]
    rw [hrr, h2]

/-! ### Claims about the session engine -/

/-- Claim C1: in every completed iteration of the `run` loop (one that
produces a `next` state or a `done` return), `target.step` is called
exactly once when `exec_state` is `Running` and not at all otherwise; in
particular, after any `Paused`-state dispatch cycle (whatever command is
dispatched — no handler mutates `exec_state`), no step occurs. -/
theorem step_iff_running (tgt : TargetModel) (s : StubState) (n : Nat)
    (h : iterSteps (runIter tgt s) = some n) :
    (s.execState = ExecState.Running ∧ n = s.stepCount + 1) ∨
    (s.execState ≠ ExecState.Running ∧ n = s.stepCount) := by
  cases hr : recvPacket s with
  | blocked =>
    rw [runIter_eq_blocked tgt s hr] at h
    exact Option.noConfusion h
  | panicked r =>
    rw [runIter_eq_panicked tgt s r hr] at h
    exact Option.noConfusion h
  | parseErr e =>
    rw [runIter_eq_parseErr tgt s e hr] at h
    exact Option.noConfusion h
  | ok p input' buf' =>
    cases p with
    | none =>
      rw [runIter_eq_none tgt s input' buf' hr] at h
      exact execPhase_steps tgt { s with input := input', packetBuffer := buf' } n h
    | some pk =>
      cases pk with
      | Ack =>
        rw [runIter_eq_ack tgt s input' buf' hr] at h
        exact execPhase_steps tgt { s with input := input', packetBuffer := buf' } n h
      | Nack =>
        rw [runIter_eq_nack tgt s input' buf' hr] at h
        exact Option.noConfusion h
      | Cmd c =>
        rw [runIter_eq_cmd tgt s c input' buf' hr] at h
        exact execPhase_steps tgt
          (handleCommand { s with input := input', packetBuffer := buf' } c) n h

/-- Witness for `step_iff_running`: a paused session receiving an `Ack`
completes an iteration with zero steps taken. -/
theorem step_iff_running_witness :
    iterSteps (runIter haltTarget (initialState [plusByte])) = some 0 ∧
    (((initialState [plusByte]).execState = ExecState.Running ∧
        0 = (initialState [plusByte]).stepCount + 1) ∨
      ((initialState [plusByte]).execState ≠ ExecState.Running ∧
        0 = (initialState [plusByte]).stepCount)) :=
  ⟨rfl, step_iff_running haltTarget (initialState [plusByte]) 0 rfl⟩

/-- Claim C2 counterexample: a fresh session that receives a `Nack` byte
(`-`) panics through the `unimplemented!()` arm of the run loop — the
previous response is not retransmitted and the session does not
continue, contradicting the claim that handling a `Nack` never crashes
the process. -/
theorem nack_crashes_cex :
    run haltTarget 1 (initialState [minusByte]) =
      RunResult.panicked PanicReason.unimplementedNack := by
  decide

/-- Claim C2 (amended): when the run loop receives a `Nack` packet it
panics via `unimplemented!()`; no retransmission happens and the session
does not continue (retransmission is an open design requirement the
sample does not implement). -/
theorem nack_panics (tgt : TargetModel) (s : StubState) (input' buf' : List Nat)
    (h : recvPacket s = RecvResult.ok (some Packet.Nack) input' buf') :
    runIter tgt s = IterResult.panicked PanicReason.unimplementedNack :=
  runIter_eq_nack tgt s input' buf' h

/-- Witness for `nack_panics` on the concrete one-byte input `-`. -/
theorem nack_panics_witness :
    recvPacket (initialState [minusByte]) =
      RecvResult.ok (some Packet.Nack) [] [minusByte] ∧
    runIter haltTarget (initialState [minusByte]) =
      IterResult.panicked PanicReason.unimplementedNack :=
  ⟨rfl, nack_panics haltTarget (initialState [minusByte]) [] [minusByte] rfl⟩

/-- Claim C3, evaluated at the failing input: dispatching the continue
command `c` (frame `$c#63`) leaves the session `Paused` with no step
taken — `handle_command` only traces "Unimplemented command" — and the
run loop then blocks waiting for input instead of running the target, so
a target whose next step would report `Halted` never ends the loop with
a halted outcome. -/
theorem continue_not_implemented_eval :
    runIter haltTarget (initialState continueFrame) =
      IterResult.next
        { execState := ExecState.Paused, input := [], output := [43, 36, 35, 48, 48],
          packetBuffer := continueFrame, memAccesses := [], stepCount := 0 } ∧
    run haltTarget 2 (initialState continueFrame) = RunResult.blocked := by
  decide

/-- Claim C6: `recv_packet` chooses its reception mode from the execution
state — with `Paused` it performs a blocking read for the first byte
(suspending when no byte is available), with `Running` it performs a
single non-blocking read and returns `Ok(None)` immediately, reading
nothing further, when no byte is pending. -/
theorem recv_mode_by_state (s : StubState) :
    (s.execState = ExecState.Paused → s.input = [] →
      recvPacket s = RecvResult.blocked) ∧
    (s.execState = ExecState.Running → s.input = [] →
      recvPacket s = RecvResult.ok none s.input s.packetBuffer) :=
  ⟨fun h1 h2 => recvPacket_eq_paused_nil s h1 h2,
    fun h1 h2 => recvPacket_eq_running_nil s h1 h2⟩

/-- Witness for `recv_mode_by_state` on concrete paused and running
sessions with exhausted input. -/
theorem recv_mode_by_state_witness :
    ((initialState []).execState = ExecState.Paused ∧
      recvPacket (initialState []) = RecvResult.blocked) ∧
    (runningState.execState = ExecState.Running ∧
      recvPacket runningState =
        RecvResult.ok none runningState.input runningState.packetBuffer) :=
  ⟨⟨rfl, (recv_mode_by_state (initialState [])).1 rfl rfl⟩,
    ⟨rfl, (recv_mode_by_state runningState).2 rfl rfl⟩⟩

/-- Claim C7: while `exec_state` is `Running`, an iteration of the run
loop whose packet reception completes (with no `Nack`) invokes
`target.step` exactly once — the step counter rises by exactly one,
never more — appending the step's reported memory accesses to the
collected sequence in order; if that step reports `Halted`, `run`
returns `Ok(TargetState::Halted)` to the caller. -/
theorem running_steps_once (tgt : TargetModel) (s : StubState) (p : Option Packet)
    (input' buf' : List Nat) (evs : List MemAccess) (ts : TargetState)
    (hrun : s.execState = ExecState.Running)
    (hrecv : recvPacket s = RecvResult.ok p input' buf')
    (hnack : p ≠ some Packet.Nack)
    (hstep : tgt s.stepCount = Except.ok (evs, ts)) :
    ∃ s', s'.stepCount = s.stepCount + 1 ∧
      s'.memAccesses = s.memAccesses ++ evs ∧
      (ts = TargetState.Halted →
        runIter tgt s = IterResult.done TargetState.Halted s' ∧
        ∀ fuel, run tgt (fuel + 1) s = RunResult.ok TargetState.Halted s') ∧
      (ts = TargetState.Running → runIter tgt s = IterResult.next s') := by
  cases p with
  | none =>
    exact runIter_running_core tgt s { s with input := input', packetBuffer := buf' }
      evs ts (runIter_eq_none tgt s input' buf' hrecv) hrun rfl rfl hstep
  | some pk =>
    cases pk with
    | Ack =>
      exact runIter_running_core tgt s { s with input := input', packetBuffer := buf' }
        evs ts (runIter_eq_ack tgt s input' buf' hrecv) hrun rfl rfl hstep
    | Nack => exact absurd rfl hnack
    | Cmd c =>
      exact runIter_running_core tgt s
        (handleCommand { s with input := input', packetBuffer := buf' } c)
        evs ts (runIter_eq_cmd tgt s c input' buf' hrecv) hrun rfl rfl hstep

/-- Witness for `running_steps_once`: a running session with no pending
input and a target that halts on its first step. -/
theorem running_steps_once_witness :
    ∃ s', s'.stepCount = runningState.stepCount + 1 ∧
      s'.memAccesses = runningState.memAccesses ++ [] ∧
      (TargetState.Halted = TargetState.Halted →
        runIter haltTarget runningState = IterResult.done TargetState.Halted s' ∧
        ∀ fuel, run haltTarget (fuel + 1) runningState =
          RunResult.ok TargetState.Halted s') ∧
      (TargetState.Halted = TargetState.Running →
        runIter haltTarget runningState = IterResult.next s') :=
  running_steps_once haltTarget runningState none [] [] [] TargetState.Halted
    rfl rfl (by decide) rfl

/-- Claim C8: an iteration of the run loop that receives an `Ack` packet
(the byte `+`) never mutates `exec_state` and never writes a response to
the transport: whether the iteration continues or returns, the execution
state and the output byte stream are unchanged. -/
theorem ack_no_effect (tgt : TargetModel) (s : StubState) (input' buf' : List Nat)
    (h : recvPacket s = RecvResult.ok (some Packet.Ack) input' buf') :
    (∀ s', runIter tgt s = IterResult.next s' →
      s'.execState = s.execState ∧ s'.output = s.output) ∧
    (∀ ts s', runIter tgt s = IterResult.done ts s' →
      s'.execState = s.execState ∧ s'.output = s.output) := by
  constructor
  · intro s' hn
    rw [runIter_eq_ack tgt s input' buf' h] at hn
    exact (execPhase_preserves_out tgt
      { s with input := input', packetBuffer := buf' }).1 s' hn
  · intro ts s' hn
    rw [runIter_eq_ack tgt s input' buf' h] at hn
    exact (execPhase_preserves_out tgt
      { s with input := input', packetBuffer := buf' }).2 ts s' hn

/-- Witness for `ack_no_effect`: a paused session receiving the single
byte `+` moves to a state with the same execution state and output. -/
theorem ack_no_effect_witness :
    recvPacket (initialState [plusByte]) =
      RecvResult.ok (some Packet.Ack) [] [plusByte] ∧
    (ackNextState.execState = (initialState [plusByte]).execState ∧
      ackNextState.output = (initialState [plusByte]).output) :=
  ⟨rfl, (ack_no_effect haltTarget (initialState [plusByte]) [] [plusByte] rfl).1
    ackNextState rfl⟩

/-- Claim C9: a fresh session starts with `exec_state ≠ Exit`
(`GdbStub::new` sets `Paused`), and `run` started in any non-`Exit`
state never reaches the `unreachable!()` arm of `recv_packet` for the
`Exit` state: no handler or iteration ever moves `exec_state` to `Exit`,
so every `recv_packet` call sees `Paused` or `Running`. -/
theorem run_no_unreachable_panic :
    (∀ input : List Nat, (initialState input).execState ≠ ExecState.Exit) ∧
    (∀ (tgt : TargetModel) (fuel : Nat) (s : StubState),
      s.execState ≠ ExecState.Exit →
      run tgt fuel s ≠ RunResult.panicked PanicReason.unreachableExit) := by
  constructor
  · intro input h
    exact ExecState.noConfusion h
  · intro tgt fuel
    induction fuel with
    | zero =>
      intro s h hc
      exact RunResult.noConfusion hc
    | succ n ih =>
      intro s h hc
      rw [run_succ tgt n s] at hc
      cases hi : runIter tgt s with
      | done ts s' =>
        rw [hi] at hc
        exact RunResult.noConfusion hc
      | next s' =>
        rw [hi] at hc
        exact ih s' (fun hx => h ((runIter_next_execState tgt s s' hi) ▸ hx)) hc
      | blocked =>
        rw [hi] at hc
        exact RunResult.noConfusion hc
      | panicked r =>
        rw [hi] at hc
        have hr2 := runIter_panicked tgt s r hi h
        cases hc
        exact PanicReason.noConfusion hr2
      | err e =>
        rw [hi] at hc
        exact RunResult.noConfusion hc

/-- Witness for `run_no_unreachable_panic` on a fresh session with empty
input and one unit of fuel. -/
theorem run_no_unreachable_panic_witness :
    (initialState []).execState ≠ ExecState.Exit ∧
    run haltTarget 1 (initialState []) ≠
      RunResult.panicked PanicReason.unreachableExit :=
  ⟨run_no_unreachable_panic.1 [],
    run_no_unreachable_panic.2 haltTarget 1 (initialState [])
      (run_no_unreachable_panic.1 [])⟩

/-- Claim C10: when the run loop reaches its execution-state check with
`exec_state = Exit`, it returns `Ok(TargetState::Running)` — an exited
session is reported to the caller with the `Running` target state, not
`Halted`. -/
theorem exit_reports_running (tgt : TargetModel) (s : StubState)
    (h : s.execState = ExecState.Exit) :
    execPhase tgt s = IterResult.done TargetState.Running s :=
  execPhase_eq_exit tgt s h

/-- Witness for `exit_reports_running` on a concrete exited session. -/
theorem exit_reports_running_witness :
    exitState.execState = ExecState.Exit ∧
    execPhase haltTarget exitState = IterResult.done TargetState.Running exitState :=
  ⟨rfl, exit_reports_running haltTarget exitState rfl⟩
